import Mathlib

/-!
Shallow embedding of msticpy/data/remap_columns.py: a declarative
filter/remap engine over pandas dataframes.  Tables are modelled as a
column-name list plus aligned rows of dynamically typed cells; the
Python functions valid_config, __df_filter, df_filter, map_fields and
prepare_object are translated statement by statement.
-/

set_option autoImplicit false

namespace RemapColumns

/-- Dynamically typed cell or scalar value as it occurs in the source:
strings, ints, bools, floats (modelled as rationals, only their type tag
matters to the code) and the null value (None/NaN). -/
inductive Value where
  | vstr (s : String)
  | vint (n : Int)
  | vbool (b : Bool)
  | vfloat (q : Rat)
  | vnull
deriving DecidableEq

/-- Numeric view used by Python equality: True is 1, False is 0. -/
def numVal : Value → Rat
  | .vint n => (n : Rat)
  | .vbool b => if b then 1 else 0
  | .vfloat q => q
  | _ => 0

/-- Python/pandas elementwise equality as used by the comparison
df[col] == value: strings equal only equal strings, numeric values
(int, bool, float) compare by numeric value, and a null cell compares
unequal to everything (NaN semantics of pandas comparisons). -/
def pyEq : Value → Value → Bool
  | .vnull, _ => false
  | _, .vnull => false
  | .vstr s, .vstr t => s == t
  | .vstr _, _ => false
  | _, .vstr _ => false
  | a, b => numVal a == numVal b

/-- A pandas DataFrame: an ordered list of column names and rows of
cells aligned with the columns. -/
structure Table where
  cols : List String
  rows : List (List Value)
deriving DecidableEq

/-- The frame pd.DataFrame(): no columns, no rows. -/
def emptyTable : Table := ⟨[], []⟩

/-- Cell of a row at a named column; a column missing from the header
reads as null, as pandas fills absent values with NaN. -/
def getCellByCols (cols : List String) (r : List Value) (c : String) : Value :=
  match cols.findIdx? (fun c2 => c2 == c) with
  | some i => r.getD i .vnull
  | none => .vnull

/-- DataFrame.append(other, ignore_index=True): concatenation of rows;
when the column sets differ the union of the columns is taken and
missing cells fill with null.  The first two branches are the common
same-schema and empty-frame cases of the general pandas rule. -/
def Table.appendT (t1 t2 : Table) : Table :=
  if t1.cols = t2.cols then ⟨t1.cols, t1.rows ++ t2.rows⟩
  else if t1.cols.isEmpty && t1.rows.isEmpty then t2
  else if t2.cols.isEmpty && t2.rows.isEmpty then t1
  else
    let cols := t1.cols ++ t2.cols.filter (fun c => !t1.cols.contains c)
    ⟨cols, t1.rows.map (fun r => cols.map (getCellByCols t1.cols r))
        ++ t2.rows.map (fun r => cols.map (getCellByCols t2.cols r))⟩

/-- pandas DataFrame.empty: true when either axis has length zero. -/
def Table.isEmptyT (t : Table) : Bool := t.rows.isEmpty || t.cols.isEmpty

/-- Shape of the value attached to one key of a condition dict: a
scalar (string, int, bool, float or None), a list of scalars, or any
other Python object (for example a nested dict). -/
inductive Spec where
  | scalar (v : Value)
  | slist (vs : List Value)
  | other
deriving DecidableEq

/-- A single condition: a Python dict from column name to spec,
modelled as an insertion-ordered association list. -/
abbrev Cond : Type := List (String × Spec)

/-- The conditions entry of a config: the wildcard or another raw
string, a single condition dict, or a list of condition dicts. -/
inductive CondSet where
  | strCond (s : String)
  | single (c : Cond)
  | clist (cs : List Cond)
deriving DecidableEq

/-- Exceptions raised by the source: the raise at the end of
__df_filter for an unexpected condition value format, and Python
KeyError for a missing dict key or dataframe column. -/
inductive Err where
  | invalidConditionFormat
  | keyError (k : String)
deriving DecidableEq

/-- The private helper __df_filter(result, conditions): walk the keys
of the condition dict in order, narrowing the working frame at each
step; an absent column returns pd.DataFrame() at once; a str/int/None
spec filters by the not-null sentinel, by isna, or by equality; a list
spec appends the per-entry equality matches into a fresh frame; any
other spec raises the condition-format exception. -/
def __df_filter : Table → Cond → Except Err Table
  | cur, [] => .ok cur
  | cur, (col, sp) :: rest =>
    if cur.cols.contains col then
      match sp with
      | .scalar (.vstr s) =>
        if s = "not null" then
          __df_filter ⟨cur.cols, cur.rows.filter
            (fun r => !(getCellByCols cur.cols r col == .vnull))⟩ rest
        else
          __df_filter ⟨cur.cols, cur.rows.filter
            (fun r => pyEq (getCellByCols cur.cols r col) (.vstr s))⟩ rest
      | .scalar (.vint n) =>
        __df_filter ⟨cur.cols, cur.rows.filter
          (fun r => pyEq (getCellByCols cur.cols r col) (.vint n))⟩ rest
      | .scalar .vnull =>
        __df_filter ⟨cur.cols, cur.rows.filter
          (fun r => getCellByCols cur.cols r col == .vnull)⟩ rest
      | .scalar (.vbool _) => .error .invalidConditionFormat
      | .scalar (.vfloat _) => .error .invalidConditionFormat
      | .slist vs =>
        __df_filter (vs.foldl (fun acc v => acc.appendT
          ⟨cur.cols, cur.rows.filter
            (fun r => pyEq (getCellByCols cur.cols r col) v)⟩) emptyTable) rest
      | .other => .error .invalidConditionFormat
    else .ok emptyTable

/-- df_filter(df, conditions): the wildcard string returns a copy of
the input, any other string falls through to the initial empty frame, a
dict delegates to __df_filter, and a list of dicts appends the result
of each dict evaluated against the original frame. -/
def df_filter (df : Table) (conditions : CondSet) : Except Err Table :=
  match conditions with
  | .strCond s => if s = "*" then .ok df else .ok emptyTable
  | .single c => __df_filter df c
  | .clist cs =>
    cs.foldlM (fun acc c => (__df_filter df c).map (fun t => acc.appendT t)) emptyTable

/-- Value attached to one key of the mapping dict: a string (simple
rename), a list (fan-out to several destination columns), or a scalar
of another type, represented here by int, which valid_config rejects
but which Python could still hand to map_fields. -/
inductive MapVal where
  | mstr (s : String)
  | mlist (vs : List Value)
  | mint (n : Int)
deriving DecidableEq

/-- Test used by map_fields to split the mapping: type(v) == list. -/
def MapVal.isList : MapVal → Bool
  | .mlist _ => true
  | _ => false

/-- Test: the mapping value is a string. -/
def MapVal.isStr : MapVal → Bool
  | .mstr _ => true
  | _ => false

/-- Destination column label of a non-list mapping value.  Column
labels of the model are strings, so the int case renders as its text;
no claim exercises an int destination, valid configs exclude it. -/
def MapVal.destLabel : MapVal → String
  | .mstr s => s
  | .mint n => toString n
  | .mlist _ => ""

/-- Destination list of a list mapping value. -/
def MapVal.dests : MapVal → List Value
  | .mlist vs => vs
  | _ => []

/-- Column label denoted by a scalar destination inside a fan-out
list; non-string labels render as their Python text form. -/
def Value.asLabel : Value → String
  | .vstr s => s
  | .vint n => toString n
  | .vbool b => if b then "True" else "False"
  | .vfloat q => toString q
  | .vnull => "None"

/-- Values of a named column, one per row. -/
def Table.colVals (t : Table) (c : String) : List Value :=
  t.rows.map (fun r => getCellByCols t.cols r c)

/-- Column assignment df[c] = vals: overwrite the column when the
label exists, otherwise append it on the right. -/
def Table.setCol (t : Table) (c : String) (vals : List Value) : Table :=
  match t.cols.findIdx? (fun c2 => c2 == c) with
  | some i => ⟨t.cols, List.zipWith (fun r v => r.set i v) t.rows vals⟩
  | none => ⟨t.cols ++ [c], (t.rows.zip vals).map (fun p => p.1 ++ [p.2])⟩

/-- Scalar column assignment df[c] = v: the scalar broadcasts to every
row. -/
def Table.setColConst (t : Table) (c : String) (v : Value) : Table :=
  t.setCol c (t.rows.map (fun _ => v))

/-- Statement del df[c]: drop the column at the first occurrence of
the label. -/
def Table.delCol (t : Table) (c : String) : Table :=
  match t.cols.findIdx? (fun c2 => c2 == c) with
  | some i => ⟨t.cols.eraseIdx i, t.rows.map (fun r => r.eraseIdx i)⟩
  | none => t

/-- DataFrame.rename(columns=m): every column label is replaced by its
image under the dict when present, labels not in the dict are kept and
absent dict keys are ignored. -/
def Table.renameCols (t : Table) (m : List (String × String)) : Table :=
  ⟨t.cols.map (fun c => match m.lookup c with | some d => d | none => c), t.rows⟩

/-- One simple-mapping step of map_fields with save_original, the
statement df[value] = df[key]: reading df[key] raises KeyError when
the source column is absent. -/
def simpleStepT (t : Table) (p : String × MapVal) : Except Err Table :=
  if t.cols.contains p.1 then .ok (t.setCol p.2.destLabel (t.colVals p.1))
  else .error (.keyError p.1)

/-- One multivalue-mapping step of map_fields: a source column absent
from the frame is skipped, otherwise the source column is copied to
every destination of the list and, unless save_original, deleted. -/
def multiStepT (t : Table) (p : String × MapVal) (save_original : Bool) : Table :=
  if t.cols.contains p.1 then
    let t1 := p.2.dests.foldl (fun tt d => tt.setCol d.asLabel (tt.colVals p.1)) t
    if save_original then t1 else t1.delCol p.1
  else t

/-- Simple-mapping phase of map_fields: with save_original copy each
simple source column under its destination name (KeyError on a missing
source), otherwise rename the columns in one pass. -/
def simplePhase (df : Table) (simple : List (String × MapVal))
    (save_original : Bool) : Except Err Table :=
  if save_original then simple.foldlM simpleStepT df
  else pure (df.renameCols (simple.map (fun p => (p.1, p.2.destLabel))))

/-- map_fields(df, mapping, save_original): split the mapping dict into
the non-list (simple) and list (multivalue) entries; run the simple
phase, then process the multivalue entries in order. -/
def map_fields (df : Table) (mapping : List (String × MapVal))
    (save_original : Bool) : Except Err Table := do
  let df1 ← simplePhase df (mapping.filter (fun p => !p.2.isList)) save_original
  pure ((mapping.filter (fun p => p.2.isList)).foldl
    (fun t p => multiStepT t p save_original) df1)

/-- A normalization config: the three keys the source reads, each
possibly absent from the dict. -/
structure Config where
  conditions : Option CondSet
  mapping : Option (List (String × MapVal))
  extensions : Option (List (String × Value))
deriving DecidableEq

/-- valid_config(config): false when the conditions key is absent,
when the mapping key is absent, or when the type of some mapping value
is neither str nor list; list elements are not inspected. -/
def valid_config (config : Config) : Bool :=
  match config.conditions with
  | none => false
  | some _ =>
    match config.mapping with
    | none => false
    | some m => m.all (fun p => match p.2 with | .mint _ => false | _ => true)

/-- Python str() of a cell as produced by applymap(str); a null cell
prints as the pandas NaN text. -/
def pyStr : Value → String
  | .vstr s => s
  | .vint n => toString n
  | .vbool b => if b then "True" else "False"
  | .vfloat q => toString q
  | .vnull => "nan"

/-- applymap(str): every cell becomes its string form. -/
def applymapStr (t : Table) : Table :=
  ⟨t.cols, t.rows.map (fun r => r.map (fun v => Value.vstr (pyStr v)))⟩

/-- Worker of drop_duplicates: keep the first occurrence of every row,
in order. -/
def dedupRows : List (List Value) → List (List Value) → List (List Value)
  | _, [] => []
  | seen, r :: rs =>
    if seen.contains r then dedupRows seen rs
    else r :: dedupRows (r :: seen) rs

/-- DataFrame.drop_duplicates(): remove later rows equal to an earlier
one, comparing whole rows. -/
def dropDuplicatesT (t : Table) : Table := ⟨t.cols, dedupRows [] t.rows⟩

/-- prepare_object(df, config): return pd.DataFrame() for an invalid
config; filter by the conditions entry; return an empty filter result
at once; then read the extensions entry (KeyError when the key is
absent), broadcast each extension value into a column, map the fields
without save_original, stringify every cell and drop duplicate rows.
The conditions and mapping reads cannot fail after valid_config. -/
def prepare_object (df : Table) (config : Config) : Except Err Table :=
  if valid_config config then
    match config.conditions with
    | none => .error (Err.keyError "conditions")
    | some conds => do
      let filtered ← df_filter df conds
      if filtered.isEmptyT then pure filtered
      else
        match config.extensions with
        | none => .error (Err.keyError "extensions")
        | some exts =>
          let extended := exts.foldl (fun t p => t.setColConst p.1 p.2) filtered
          match config.mapping with
          | none => .error (Err.keyError "mapping")
          | some m => do
            let mapped ← map_fields extended m false
            pure (dropDuplicatesT (applymapStr mapped))
  else pure emptyTable

/-- Heap of dataframe objects, indexed by reference; used to model
which Python statements write through the caller-supplied frame
reference and which only build fresh frames. -/
abbrev Store : Type := Nat → Table

/-- Frame currently behind a reference. -/
def Store.read (s : Store) (r : Nat) : Table := s r

/-- In-place update of the frame behind a reference. -/
def Store.write (s : Store) (r : Nat) (t : Table) : Store :=
  fun r2 => if r2 = r then t else s r2

/-- Call-level view of df_filter: its body starts from df.copy() and
only builds fresh frames, so no statement writes through the argument
reference; the store is returned untouched next to the fresh result. -/
def df_filter_call (s : Store) (r : Nat) (conditions : CondSet) :
    Except Err (Store × Table) :=
  (df_filter (s.read r) conditions).map (fun t => (s, t))

/-- Call-level view of prepare_object: the frames it mutates
(extensions and mapping are applied to the frame returned by
df_filter) are fresh copies, so the argument reference is untouched. -/
def prepare_object_call (s : Store) (r : Nat) (config : Config) :
    Except Err (Store × Table) :=
  (prepare_object (s.read r) config).map (fun t => (s, t))

/-- Store-level simple phase: each statement df[value] = df[key] (or
the single inplace rename) reads the frame behind the argument
reference and writes the updated frame back to the same reference. -/
def simplePhase_call (s : Store) (r : Nat) (simple : List (String × MapVal))
    (save_original : Bool) : Except Err Store :=
  if save_original then
    simple.foldlM (fun st p => (simpleStepT (st.read r) p).map (fun t => st.write r t)) s
  else
    pure (s.write r ((s.read r).renameCols (simple.map (fun p => (p.1, p.2.destLabel)))))

/-- Call-level view of map_fields: every statement of its body
(df.rename with inplace, df[value] = df[key], del df[key]) mutates the
frame behind the argument reference in place; the function finally
returns that same reference. -/
def map_fields_call (s : Store) (r : Nat) (mapping : List (String × MapVal))
    (save_original : Bool) : Except Err (Store × Nat) := do
  let s1 ← simplePhase_call s r (mapping.filter (fun p => !p.2.isList)) save_original
  pure ((mapping.filter (fun p => p.2.isList)).foldl
    (fun st p => st.write r (multiStepT (st.read r) p save_original)) s1, r)

/-- Modelled from the spec wording of claim C2, for comparison with
valid_config: a config is valid when conditions and mapping are both
present and every mapping value is a string or a list of strings. -/
def spec_is_valid (c : Config) : Bool :=
  c.conditions.isSome &&
  (match c.mapping with
   | none => false
   | some m => m.all (fun p => match p.2 with
      | .mstr _ => true
      | .mlist vs => vs.all (fun v => match v with | .vstr _ => true | _ => false)
      | .mint _ => false))

/-- Modelled from the amended wording of claim C2: conditions and
mapping present and every mapping value a string or a list, with list
elements left unchecked. -/
def spec_is_valid_amended (c : Config) : Bool :=
  c.conditions.isSome &&
  (match c.mapping with
   | none => false
   | some m => m.all (fun p => p.2.isStr || p.2.isList))

/-- Scalar specs that reach the plain equality branch of __df_filter:
strings other than the not-null sentinel, and ints. -/
def eqScalarSpec : Value → Bool
  | .vstr s => s != "not null"
  | .vint _ => true
  | _ => false

/-- Spec shapes that do not reach the raise at the end of __df_filter:
str, int and None scalars and lists. -/
def supportedShape : Spec → Bool
  | .scalar (.vbool _) => false
  | .scalar (.vfloat _) => false
  | .other => false
  | _ => true

/-- Success of __df_filter with a result carrying the columns of the
input frame, as a decidable test. -/
def okWithColsB (df : Table) (c : Cond) : Bool :=
  match __df_filter df c with
  | .ok t => t.cols == df.cols
  | .error _ => false

/-- Rows produced by one condition of an OR-list, empty on error. -/
def filterRowsOf (df : Table) (c : Cond) : List (List Value) :=
  match __df_filter df c with
  | .ok t => t.rows
  | .error _ => []

theorem Table.eta (t : Table) : (⟨t.cols, t.rows⟩ : Table) = t := rfl

theorem appendT_same_cols (t1 t2 : Table) (h : t1.cols = t2.cols) :
    t1.appendT t2 = ⟨t1.cols, t1.rows ++ t2.rows⟩ := by
  simp [Table.appendT, h]

theorem appendT_empty_left (t : Table) (h : t.cols ≠ []) :
    Table.appendT emptyTable t = t := by
  unfold Table.appendT
  rw [if_neg (fun e => h e.symm)]
  rfl

theorem foldl_appendT_acc (cols : List String) :
    ∀ (ts : List Table), (∀ x ∈ ts, x.cols = cols) →
    ∀ acc : Table, acc.cols = cols →
      ts.foldl Table.appendT acc = ⟨cols, acc.rows ++ (ts.map Table.rows).flatten⟩ := by
  intro ts
  induction ts with
  | nil =>
    intro _ acc hacc
    simp [← hacc]
  | cons x ts ih =>
    intro h acc hacc
    have hx : x.cols = cols := h x (by simp)
    have h2 : ∀ y ∈ ts, y.cols = cols := fun y hy => h y (by simp [hy])
    rw [List.foldl_cons, appendT_same_cols acc x (by rw [hacc, hx]), hacc]
    rw [ih h2 ⟨cols, acc.rows ++ x.rows⟩ rfl]
    simp

theorem foldl_appendT_empty_rows (cols : List String) (hc : cols ≠ [])
    (ts : List Table) (h : ∀ x ∈ ts, x.cols = cols) :
    (ts.foldl Table.appendT emptyTable).rows = (ts.map Table.rows).flatten := by
  cases ts with
  | nil => rfl
  | cons x ts =>
    have hx : x.cols = cols := h x (by simp)
    have h2 : ∀ y ∈ ts, y.cols = cols := fun y hy => h y (by simp [hy])
    rw [List.foldl_cons, appendT_empty_left x (by rw [hx]; exact hc)]
    rw [foldl_appendT_acc cols ts h2 x hx]
    simp

theorem foldl_appendT_empty_cols (cols : List String)
    (ts : List Table) (h : ∀ x ∈ ts, x.cols = cols) :
    (ts.foldl Table.appendT emptyTable).cols = cols ∨
    (ts.foldl Table.appendT emptyTable).cols = [] := by
  cases ts with
  | nil => right; rfl
  | cons x ts =>
    have hx : x.cols = cols := h x (by simp)
    have h2 : ∀ y ∈ ts, y.cols = cols := fun y hy => h y (by simp [hy])
    by_cases hc : cols = []
    · subst hc
      left
      rw [List.foldl_cons]
      have hemp : Table.appendT emptyTable x = ⟨x.cols, x.rows⟩ := by
        simp [Table.appendT, emptyTable, hx]
      rw [hemp, foldl_appendT_acc [] ts h2 ⟨x.cols, x.rows⟩ hx]
    · left
      rw [List.foldl_cons, appendT_empty_left x (by rw [hx]; exact hc)]
      rw [foldl_appendT_acc cols ts h2 x hx]

theorem except_map_ok {α β : Type} (f : α → β) (x : α) :
    Except.map f (Except.ok x : Except Err α) = .ok (f x) := rfl

theorem except_bind_ok {α β : Type} (x : α) (k : α → Except Err β) :
    (Except.ok x : Except Err α) >>= k = k x := rfl

theorem df_filter_clist_fold (df : Table) :
    ∀ (cs : List Cond), (∀ c ∈ cs, okWithColsB df c = true) →
    ∀ acc : Table, acc.cols = df.cols →
      List.foldlM (fun a c => (__df_filter df c).map (fun t => a.appendT t)) acc cs
        = .ok ⟨df.cols, acc.rows ++ (cs.map (filterRowsOf df)).flatten⟩ := by
  intro cs
  induction cs with
  | nil =>
    intro _ acc hacc
    simp [← hacc]
    rfl
  | cons c cs ih =>
    intro h acc hacc
    have hcB := h c (by simp)
    cases hfc : __df_filter df c with
    | error e => simp [okWithColsB, hfc] at hcB
    | ok t =>
      have ht : t.cols = df.cols := by
        simpa [okWithColsB, hfc] using hcB
      have h2 : ∀ y ∈ cs, okWithColsB df y = true := fun y hy => h y (by simp [hy])
      rw [List.foldlM_cons, hfc, except_map_ok, except_bind_ok]
      rw [appendT_same_cols acc t (by rw [hacc, ht]), hacc]
      rw [ih h2 ⟨df.cols, acc.rows ++ t.rows⟩ rfl]
      simp [filterRowsOf, hfc]

/-- C1 (corrected): with a list of conditions, df_filter evaluates
each condition against the original frame and concatenates the
per-condition matches in order; rows matching several conditions are
retained once per match, deduplication happens only later in
prepare_object. -/
theorem C1_amended (df : Table) (cs : List Cond)
    (hc : df.cols ≠ [])
    (hok : ∀ c ∈ cs, okWithColsB df c = true) :
    (df_filter df (.clist cs)).map Table.rows
      = .ok ((cs.map (filterRowsOf df)).flatten) := by
  cases cs with
  | nil => rfl
  | cons c cs =>
    have hcB := hok c (by simp)
    cases hfc : __df_filter df c with
    | error e => simp [okWithColsB, hfc] at hcB
    | ok t =>
      have ht : t.cols = df.cols := by
        simpa [okWithColsB, hfc] using hcB
      have h2 : ∀ y ∈ cs, okWithColsB df y = true := fun y hy => hok y (by simp [hy])
      show (List.foldlM (fun a c => (__df_filter df c).map (fun t => a.appendT t))
          emptyTable (c :: cs)).map Table.rows = _
      rw [List.foldlM_cons, hfc, except_map_ok, except_bind_ok]
      rw [appendT_empty_left t (by rw [ht]; exact hc)]
      rw [df_filter_clist_fold df cs h2 t ht]
      simp [filterRowsOf, hfc, except_map_ok]

/-- C1 (counterexample): a single row matching both of two conditions
appears twice in the result of df_filter, so the per-condition matches
are not deduplicated. -/
theorem C1_counterexample :
    df_filter ⟨["a", "b"], [[.vint 1, .vint 2]]⟩
        (.clist [[("a", .scalar (.vint 1))], [("b", .scalar (.vint 2))]])
      = .ok ⟨["a", "b"], [[.vint 1, .vint 2], [.vint 1, .vint 2]]⟩ ∧
    ¬ ([[Value.vint 1, Value.vint 2], [Value.vint 1, Value.vint 2]] :
        List (List Value)).Nodup :=
  ⟨rfl, by decide⟩

/-- C1 (witness): the amended theorem applied to a two-row frame and
two int-equality conditions. -/
theorem C1_amended_witness :
    ((⟨["a"], [[Value.vint 1], [Value.vint 2]]⟩ : Table).cols ≠ []) ∧
    (∀ c ∈ [[("a", Spec.scalar (Value.vint 1))], [("a", Spec.scalar (Value.vint 2))]],
        okWithColsB ⟨["a"], [[Value.vint 1], [Value.vint 2]]⟩ c = true) ∧
    (df_filter ⟨["a"], [[Value.vint 1], [Value.vint 2]]⟩
        (.clist [[("a", .scalar (.vint 1))], [("a", .scalar (.vint 2))]])).map Table.rows
      = .ok (([[("a", Spec.scalar (Value.vint 1))], [("a", Spec.scalar (Value.vint 2))]].map
          (filterRowsOf ⟨["a"], [[Value.vint 1], [Value.vint 2]]⟩)).flatten) :=
  ⟨by decide, by decide, C1_amended _ _ (by decide) (by decide)⟩

/-- C2 (counterexample): a config whose mapping value is a list
containing an int is accepted by valid_config although the wording of
the claim requires it to be rejected. -/
theorem C2_counterexample :
    valid_config ⟨some (.strCond "*"), some [("a", .mlist [.vint 1])], none⟩ = true ∧
    spec_is_valid ⟨some (.strCond "*"), some [("a", .mlist [.vint 1])], none⟩ = false :=
  ⟨rfl, rfl⟩

/-- C2 (corrected): valid_config is false exactly when conditions or
mapping is absent or some mapping value is neither a string nor a
list; the elements of a list value are never inspected. -/
theorem C2_amended (c : Config) : valid_config c = spec_is_valid_amended c := by
  rcases c with ⟨conds, m, exts⟩
  cases conds with
  | none => rfl
  | some cset =>
    cases m with
    | none => rfl
    | some mm =>
      induction mm with
      | nil => rfl
      | cons p ps ih =>
        rcases p with ⟨k, v⟩
        cases v <;>
          simp_all [valid_config, spec_is_valid_amended, MapVal.isStr, MapVal.isList]

/-- C3 (corrected): a list spec keeps, for each entry of the list in
order, the rows of the current frame equal to that entry, and
concatenates these per-entry matches; a repeated entry repeats its
matching rows, nothing is deduplicated. -/
theorem C3_amended (df : Table) (col : String) (vs : List Value)
    (hc : df.cols ≠ []) (hcol : df.cols.contains col = true) :
    (__df_filter df [(col, .slist vs)]).map Table.rows
      = .ok ((vs.map (fun v => df.rows.filter
          (fun r => pyEq (getCellByCols df.cols r col) v))).flatten) := by
  have hmem : col ∈ df.cols := by simpa using hcol
  have step : __df_filter df [(col, .slist vs)]
      = .ok (vs.foldl (fun acc v => acc.appendT
          ⟨df.cols, df.rows.filter (fun r => pyEq (getCellByCols df.cols r col) v)⟩)
          emptyTable) := by
    simp [__df_filter, hmem]
  rw [step, except_map_ok]
  congr 1
  rw [← List.foldl_map
    (fun v => (⟨df.cols, df.rows.filter
      (fun r => pyEq (getCellByCols df.cols r col) v)⟩ : Table))
    Table.appendT]
  rw [foldl_appendT_empty_rows df.cols hc _ (by
    intro x hx
    rcases List.mem_map.mp hx with ⟨v, hv, rfl⟩
    rfl)]
  rw [List.map_map]
  rfl

/-- C3 (counterexample): a list spec with a repeated entry returns the
matching row twice, so the result of the membership union is not free
of duplicate rows. -/
theorem C3_counterexample :
    __df_filter ⟨["a"], [[.vint 1]]⟩ [("a", .slist [.vint 1, .vint 1])]
      = .ok ⟨["a"], [[.vint 1], [.vint 1]]⟩ ∧
    ¬ ([[Value.vint 1], [Value.vint 1]] : List (List Value)).Nodup :=
  ⟨rfl, by decide⟩

/-- C3 (witness): the amended theorem applied to a two-row frame and a
repeated membership list. -/
theorem C3_amended_witness :
    ((⟨["a"], [[Value.vint 1], [Value.vint 2]]⟩ : Table).cols ≠ []) ∧
    (["a"].contains "a" = true) ∧
    (__df_filter ⟨["a"], [[Value.vint 1], [Value.vint 2]]⟩
        [("a", .slist [.vint 1, .vint 1])]).map Table.rows
      = .ok (([Value.vint 1, Value.vint 1].map (fun v =>
          [[Value.vint 1], [Value.vint 2]].filter
            (fun r => pyEq (getCellByCols ["a"] r "a") v))).flatten) :=
  ⟨by decide, by decide, C3_amended _ _ _ (by decide) (by decide)⟩

theorem except_map_error {α β : Type} (f : α → β) (e : Err) :
    Except.map f (Except.error e : Except Err α) = .error e := rfl

theorem except_bind_error {α β : Type} (e : Err) (k : α → Except Err β) :
    (Except.error e : Except Err α) >>= k = .error e := rfl

/-- C4 (counterexample): a condition whose only key carries an
unsupported spec shape but names a column absent from the table makes
the evaluator return the empty frame without any error, so an
unsupported shape does not always raise. -/
theorem C4_counterexample :
    __df_filter ⟨["a"], [[.vint 1]]⟩ [("zz", Spec.other)] = .ok emptyTable :=
  rfl

/-- C4 (corrected): when the key carrying the unsupported spec shape
names a column present in the frame, the evaluator raises the
condition-format error, and df_filter surfaces it unchanged for a
single condition and for a list of conditions. -/
theorem C4_amended (t : Table) (col : String) (rest : Cond)
    (h : t.cols.contains col = true) :
    df_filter t (.single ((col, Spec.other) :: rest)) = .error .invalidConditionFormat ∧
    df_filter t (.clist [(col, Spec.other) :: rest]) = .error .invalidConditionFormat := by
  have hmem : col ∈ t.cols := by simpa using h
  have h1 : __df_filter t ((col, Spec.other) :: rest) = .error .invalidConditionFormat := by
    simp [__df_filter, hmem]
  refine ⟨h1, ?_⟩
  show List.foldlM (fun a c => (__df_filter t c).map (fun t2 => a.appendT t2))
      emptyTable [(col, Spec.other) :: rest] = _
  rw [List.foldlM_cons, h1, except_map_error, except_bind_error]

/-- C4 (witness): the amended theorem applied to a one-column frame
with the bad spec attached to the present column. -/
theorem C4_amended_witness :
    (["a"].contains "a" = true) ∧
    (df_filter ⟨["a"], [[Value.vint 1]]⟩ (.single [("a", Spec.other)])
        = .error .invalidConditionFormat ∧
      df_filter ⟨["a"], [[Value.vint 1]]⟩ (.clist [[("a", Spec.other)]])
        = .error .invalidConditionFormat) :=
  ⟨by decide, C4_amended _ _ _ (by decide)⟩

/-- C5 (counterexample): a bool scalar spec and a float scalar spec
each raise the condition-format error instead of filtering by
equality, although the column is present. -/
theorem C5_counterexample :
    __df_filter ⟨["a"], [[.vint 1]]⟩ [("a", .scalar (.vbool true))]
      = .error .invalidConditionFormat ∧
    __df_filter ⟨["a"], [[.vint 1]]⟩ [("a", .scalar (.vfloat 1))]
      = .error .invalidConditionFormat :=
  ⟨rfl, rfl⟩

/-- C5 (corrected): for a scalar spec of type str (other than the
not-null sentinel) or int on a present column, the evaluator succeeds
and keeps exactly the rows whose cell is Python-equal to the scalar;
bool and float scalars instead raise the condition-format error. -/
theorem C5_amended (t : Table) (col : String) (v : Value)
    (hcol : t.cols.contains col = true) (hv : eqScalarSpec v = true) :
    __df_filter t [(col, .scalar v)]
      = .ok ⟨t.cols, t.rows.filter (fun r => pyEq (getCellByCols t.cols r col) v)⟩ := by
  have hmem : col ∈ t.cols := by simpa using hcol
  cases v with
  | vstr s =>
    have hs : ¬(s = "not null") := by simpa [eqScalarSpec] using hv
    simp [__df_filter, hmem, hs]
  | vint n => simp [__df_filter, hmem]
  | vbool b => simp [eqScalarSpec] at hv
  | vfloat q => simp [eqScalarSpec] at hv
  | vnull => simp [eqScalarSpec] at hv

/-- C5 (witness): the amended theorem applied to an int spec over a
column holding an equal int, a string of the same digits and a null;
only the int row survives, so no coercion from strings occurs. -/
theorem C5_amended_witness :
    (["a"].contains "a" = true) ∧
    (eqScalarSpec (Value.vint 1) = true) ∧
    __df_filter ⟨["a"], [[Value.vint 1], [Value.vstr "1"], [Value.vnull]]⟩
        [("a", .scalar (.vint 1))]
      = .ok ⟨["a"], [[Value.vint 1], [Value.vstr "1"], [Value.vnull]].filter
          (fun r => pyEq (getCellByCols ["a"] r "a") (Value.vint 1))⟩ :=
  ⟨by decide, by decide, C5_amended _ _ _ (by decide) (by decide)⟩

theorem renameCols_nil (t : Table) : t.renameCols [] = t := by
  unfold Table.renameCols
  exact congrArg (fun l => (⟨l, t.rows⟩ : Table)) (List.map_id' t.cols)

theorem renameCols_single_absent (t : Table) (k d : String)
    (h : t.cols.contains k = false) :
    t.renameCols [(k, d)] = t := by
  have hk : k ∉ t.cols := by simpa using h
  unfold Table.renameCols
  refine congrArg (fun l => (⟨l, t.rows⟩ : Table)) ?_
  have hcongr : t.cols.map (fun c =>
      match ([(k, d)] : List (String × String)).lookup c with
      | some x => x
      | none => c) = t.cols.map (fun c => c) := by
    apply List.map_congr_left
    intro c hc
    have hne : (c == k) = false := by
      apply beq_eq_false_iff_ne.mpr
      intro e
      exact hk (e ▸ hc)
    simp [List.lookup, hne]
  rw [hcongr, List.map_id']

/-- C6 (counterexample): a simple string-valued mapping entry whose
source column is absent raises KeyError when preserve_original is
true, instead of being silently skipped. -/
theorem C6_counterexample :
    map_fields ⟨["x"], [[.vint 1]]⟩ [("a", .mstr "b")] true = .error (.keyError "a") :=
  rfl

/-- C6 (corrected): a list-valued mapping entry with an absent source
is skipped without error for both flag values, and a simple entry with
an absent source is silently ignored by the rename when
preserve_original is false; but a simple entry with an absent source
raises KeyError when preserve_original is true. -/
theorem C6_amended (t : Table) (k d : String) (dests : List Value) (so : Bool)
    (h : t.cols.contains k = false) :
    map_fields t [(k, .mlist dests)] so = .ok t ∧
    map_fields t [(k, .mstr d)] false = .ok t ∧
    map_fields t [(k, .mstr d)] true = .error (.keyError k) := by
  have hmem : k ∉ t.cols := by simpa using h
  refine ⟨?_, ?_, ?_⟩
  · cases so with
    | false =>
      simp [map_fields, simplePhase, MapVal.isList, renameCols_nil, multiStepT, hmem]
      rfl
    | true =>
      simp [map_fields, simplePhase, MapVal.isList, multiStepT, hmem]
      rfl
  · simp [map_fields, simplePhase, MapVal.isList, MapVal.destLabel,
      renameCols_single_absent t k d h, multiStepT]
    rfl
  · simp [map_fields, simplePhase, MapVal.isList, simpleStepT, hmem]

/-- C6 (witness): the amended theorem applied to a frame without the
source column of the mapping. -/
theorem C6_amended_witness :
    ((⟨["x"], [[Value.vint 1]]⟩ : Table).cols.contains "a" = false) ∧
    (map_fields ⟨["x"], [[Value.vint 1]]⟩ [("a", .mlist [.vstr "b"])] true
        = .ok ⟨["x"], [[Value.vint 1]]⟩ ∧
      map_fields ⟨["x"], [[Value.vint 1]]⟩ [("a", .mstr "b")] false
        = .ok ⟨["x"], [[Value.vint 1]]⟩ ∧
      map_fields ⟨["x"], [[Value.vint 1]]⟩ [("a", .mstr "b")] true
        = .error (.keyError "a")) :=
  ⟨by decide, C6_amended _ _ _ _ _ (by decide)⟩

theorem store_read_write (s : Store) (r : Nat) (t : Table) :
    (s.write r t).read r = t := by
  simp [Store.read, Store.write]

theorem store_write_read_self (s : Store) (r : Nat) :
    s.write r (s.read r) = s := by
  funext x
  by_cases e : x = r <;> simp [Store.write, Store.read, e]

theorem store_write_write (s : Store) (r : Nat) (t1 t2 : Table) :
    (s.write r t1).write r t2 = s.write r t2 := by
  funext x
  by_cases e : x = r <;> simp [Store.write, e]

theorem foldlM_simple_store (r : Nat) (l : List (String × MapVal)) :
    ∀ s : Store,
      List.foldlM (fun st p => (simpleStepT (st.read r) p).map (fun t => st.write r t)) s l
        = (List.foldlM simpleStepT (s.read r) l).map (fun t => s.write r t) := by
  induction l with
  | nil =>
    intro s
    show (pure s : Except Err Store)
        = ((pure (s.read r) : Except Err Table)).map (fun t => s.write r t)
    rw [show ((pure (s.read r) : Except Err Table)).map (fun t => s.write r t)
        = .ok (s.write r (s.read r)) from rfl]
    rw [store_write_read_self]
    rfl
  | cons p l ih =>
    intro s
    rw [List.foldlM_cons, List.foldlM_cons]
    cases hs : simpleStepT (s.read r) p with
    | error e =>
      rw [except_map_error, except_bind_error, except_bind_error, except_map_error]
    | ok t =>
      rw [except_map_ok, except_bind_ok, except_bind_ok, ih (s.write r t)]
      rw [store_read_write]
      have hf : (fun t2 => (s.write r t).write r t2) = fun t2 => s.write r t2 :=
        funext (fun t2 => store_write_write s r t t2)
      rw [hf]

theorem foldl_multi_store (r : Nat) (so : Bool) (l : List (String × MapVal)) :
    ∀ s : Store,
      List.foldl (fun st p => st.write r (multiStepT (st.read r) p so)) s l
        = s.write r (List.foldl (fun t p => multiStepT t p so) (s.read r) l) := by
  induction l with
  | nil => intro s; rw [List.foldl_nil, List.foldl_nil, store_write_read_self]
  | cons p l ih =>
    intro s
    rw [List.foldl_cons, List.foldl_cons, ih]
    rw [store_read_write, store_write_write]

theorem simplePhase_store (s : Store) (r : Nat) (l : List (String × MapVal)) (so : Bool) :
    simplePhase_call s r l so = (simplePhase (s.read r) l so).map (fun t => s.write r t) := by
  cases so with
  | false => rfl
  | true =>
    show List.foldlM _ s l = (List.foldlM simpleStepT (s.read r) l).map (fun t => s.write r t)
    exact foldlM_simple_store r l s

theorem map_fields_call_eq (s : Store) (r : Nat) (m : List (String × MapVal)) (so : Bool) :
    map_fields_call s r m so = (map_fields (s.read r) m so).map (fun t => (s.write r t, r)) := by
  unfold map_fields_call map_fields
  rw [simplePhase_store]
  cases hp : simplePhase (s.read r) (m.filter (fun p => !p.2.isList)) so with
  | error e =>
    rw [except_map_error, except_bind_error, except_bind_error, except_map_error]
  | ok t =>
    rw [except_map_ok, except_bind_ok, except_bind_ok]
    show Except.ok (_, r) = _
    rw [foldl_multi_store, store_read_write, store_write_write]
    rfl

/-- C7 (counterexample): calling map_fields on a one-column frame with
a simple rename changes the frame behind the reference the caller
passed, so map_fields is not pure in its table argument. -/
theorem C7_counterexample :
    (map_fields_call (fun _ => ⟨["a"], [[Value.vint 1]]⟩) 0 [("a", .mstr "b")] false).map
        (fun res => res.1.read 0)
      = .ok ⟨["b"], [[Value.vint 1]]⟩ ∧
    (⟨["b"], [[Value.vint 1]]⟩ : Table) ≠ ⟨["a"], [[Value.vint 1]]⟩ :=
  ⟨rfl, by decide⟩

/-- C7 (corrected): valid_config, df_filter and prepare_object leave
the frame behind the caller reference unchanged (df_filter copies its
input, prepare_object mutates only fresh frames, valid_config never
touches a table), but map_fields writes the mapped table back through
the very reference it was given and returns that reference. -/
theorem C7_amended (s : Store) (r : Nat) (conditions : CondSet) (config : Config)
    (m : List (String × MapVal)) (so : Bool) :
    (∀ st t, df_filter_call s r conditions = .ok (st, t) → st = s) ∧
    (∀ st t, prepare_object_call s r config = .ok (st, t) → st = s) ∧
    (∀ st rr, map_fields_call s r m so = .ok (st, rr) →
      rr = r ∧ map_fields (s.read r) m so = .ok (st.read r)) := by
  refine ⟨?_, ?_, ?_⟩
  · intro st t hst
    unfold df_filter_call at hst
    cases hd : df_filter (s.read r) conditions with
    | error e => rw [hd, except_map_error] at hst; exact absurd hst (by simp)
    | ok t0 =>
      rw [hd, except_map_ok] at hst
      injection hst with h1
      injection h1 with h2 h3
      exact h2.symm
  · intro st t hst
    unfold prepare_object_call at hst
    cases hd : prepare_object (s.read r) config with
    | error e => rw [hd, except_map_error] at hst; exact absurd hst (by simp)
    | ok t0 =>
      rw [hd, except_map_ok] at hst
      injection hst with h1
      injection h1 with h2 h3
      exact h2.symm
  · intro st rr hst
    rw [map_fields_call_eq] at hst
    cases hm : map_fields (s.read r) m so with
    | error e => rw [hm, except_map_error] at hst; exact absurd hst (by simp)
    | ok t0 =>
      rw [hm, except_map_ok] at hst
      injection hst with h1
      injection h1 with h2 h3
      refine ⟨h3.symm, ?_⟩
      rw [← h2, store_read_write]

/-- C7 (witness): the amended theorem applied to the concrete rename
call of the counterexample. -/
theorem C7_amended_witness :
    map_fields_call (fun _ => ⟨["a"], [[Value.vint 1]]⟩) 0 [("a", .mstr "b")] false
      = .ok (Store.write (fun _ => ⟨["a"], [[Value.vint 1]]⟩) 0 ⟨["b"], [[Value.vint 1]]⟩, 0) ∧
    (0 = 0 ∧
      map_fields (Store.read (fun _ => ⟨["a"], [[Value.vint 1]]⟩) 0) [("a", .mstr "b")] false
        = .ok ((Store.write (fun _ => ⟨["a"], [[Value.vint 1]]⟩) 0
            ⟨["b"], [[Value.vint 1]]⟩).read 0)) :=
  ⟨rfl, (C7_amended (fun _ => ⟨["a"], [[Value.vint 1]]⟩) 0 (.strCond "*") ⟨none, none, none⟩
      [("a", .mstr "b")] false).2.2 _ _ rfl⟩

/-- C8 (counterexample): a condition containing a key with an absent
column still raises the condition-format error when an earlier key of
the dict carries an unsupported spec on a present column, so the
absent column does not always win. -/
theorem C8_counterexample :
    __df_filter ⟨["a"], [[.vint 1]]⟩ [("a", Spec.other), ("zz", .scalar (.vint 1))]
      = .error .invalidConditionFormat :=
  rfl

/-- C8 (corrected): a condition containing a key with an absent column
makes the evaluator return the empty frame without error, provided the
keys before it in the dict all carry supported spec shapes (str, int,
None or list); an earlier unsupported shape on a present column raises
first. -/
theorem df_filter_step_supported (t : Table) (c : String) (s : Spec) (rest2 : Cond)
    (hc : c ∈ t.cols) (hs : supportedShape s = true) :
    ∃ t2 : Table, (t2.cols = t.cols ∨ t2.cols = []) ∧
      __df_filter t ((c, s) :: rest2) = __df_filter t2 rest2 := by
  cases s with
  | scalar v =>
    cases v with
    | vstr str =>
      by_cases hnn : str = "not null"
      · subst hnn
        exact ⟨⟨t.cols, t.rows.filter (fun r => !(getCellByCols t.cols r c == .vnull))⟩,
          Or.inl rfl, by simp [__df_filter, hc]⟩
      · exact ⟨⟨t.cols, t.rows.filter (fun r => pyEq (getCellByCols t.cols r c) (.vstr str))⟩,
          Or.inl rfl, by simp [__df_filter, hc, hnn]⟩
    | vint n =>
      exact ⟨⟨t.cols, t.rows.filter (fun r => pyEq (getCellByCols t.cols r c) (.vint n))⟩,
        Or.inl rfl, by simp [__df_filter, hc]⟩
    | vnull =>
      exact ⟨⟨t.cols, t.rows.filter (fun r => getCellByCols t.cols r c == .vnull)⟩,
        Or.inl rfl, by simp [__df_filter, hc]⟩
    | vbool b => simp [supportedShape] at hs
    | vfloat q => simp [supportedShape] at hs
  | slist vs =>
    refine ⟨(vs.map (fun v => (⟨t.cols, t.rows.filter
        (fun r => pyEq (getCellByCols t.cols r c) v)⟩ : Table))).foldl Table.appendT emptyTable,
      ?_, ?_⟩
    · exact foldl_appendT_empty_cols t.cols _ (by
        intro x hx
        rcases List.mem_map.mp hx with ⟨v, hv, rfl⟩
        rfl)
    · rw [List.foldl_map]
      simp [__df_filter, hc]
  | other => simp [supportedShape] at hs

/-- C8 (corrected): a condition containing a key with an absent column
makes the evaluator return the empty frame without error, provided the
keys before it in the dict all carry supported spec shapes (str, int,
None or list); an earlier unsupported shape on a present column raises
first. -/
theorem C8_amended (t : Table) (pre : Cond) (col : String) (sp : Spec) (rest : Cond)
    (hpre : pre.all (fun p => supportedShape p.2) = true)
    (hcol : t.cols.contains col = false) :
    __df_filter t (pre ++ (col, sp) :: rest) = .ok emptyTable := by
  induction pre generalizing t with
  | nil =>
    have hmem : col ∉ t.cols := by simpa using hcol
    simp [__df_filter, hmem]
  | cons q pre ih =>
    rcases q with ⟨c, s⟩
    simp only [List.all_cons, Bool.and_eq_true] at hpre
    obtain ⟨hq, hpre2⟩ := hpre
    rw [List.cons_append]
    by_cases hc : c ∈ t.cols
    · obtain ⟨t2, hcols2, hstep⟩ :=
        df_filter_step_supported t c s (pre ++ (col, sp) :: rest) hc hq
      rw [hstep]
      refine ih t2 hpre2 ?_
      rcases hcols2 with h2 | h2
      · rw [h2]
        exact hcol
      · rw [h2]
        rfl
    · simp [__df_filter, hc]

/-- C8 (witness): the amended theorem applied to a condition whose
first key filters a present column by int equality and whose second
key names an absent column. -/
theorem C8_amended_witness :
    (([("a", Spec.scalar (Value.vint 1))] : Cond).all (fun p => supportedShape p.2) = true) ∧
    (["a"].contains "zz" = false) ∧
    __df_filter ⟨["a"], [[Value.vint 1]]⟩
        ([("a", Spec.scalar (Value.vint 1))] ++ [("zz", Spec.scalar (Value.vint 5))])
      = .ok emptyTable :=
  ⟨by decide, by decide, C8_amended _ _ _ _ _ (by decide) (by decide)⟩

/-- C9 (confirmed): whenever valid_config rejects the config,
prepare_object returns the empty frame and raises nothing. -/
theorem C9_theorem (df : Table) (config : Config)
    (h : valid_config config = false) :
    prepare_object df config = .ok emptyTable := by
  unfold prepare_object
  rw [h]
  rfl

/-- C9 (witness): a config without the conditions key. -/
theorem C9_witness :
    valid_config ⟨none, some [("a", .mstr "b")], none⟩ = false ∧
    prepare_object ⟨["a"], [[Value.vint 1]]⟩ ⟨none, some [("a", .mstr "b")], none⟩
      = .ok emptyTable :=
  ⟨rfl, C9_theorem _ _ rfl⟩

/-- C10 (confirmed): a config accepted by valid_config but lacking the
extensions key makes prepare_object raise KeyError for extensions as
soon as the row filter returns a non-empty frame. -/
theorem C10_theorem (df : Table) (config : Config) (conds : CondSet) (filtered : Table)
    (hv : valid_config config = true)
    (hconds : config.conditions = some conds)
    (hfilter : df_filter df conds = .ok filtered)
    (hne : filtered.isEmptyT = false)
    (hext : config.extensions = none) :
    prepare_object df config = .error (.keyError "extensions") := by
  unfold prepare_object
  rw [hv, if_pos rfl, hconds]
  show (df_filter df conds) >>= _ = _
  rw [hfilter, except_bind_ok]
  simp only []
  rw [hne, if_neg (by simp), hext]

/-- C10 (witness): a wildcard-conditions config with a mapping but no
extensions over a one-row frame. -/
theorem C10_witness :
    valid_config ⟨some (.strCond "*"), some [("a", .mstr "b")], none⟩ = true ∧
    (⟨some (.strCond "*"), some [("a", .mstr "b")], none⟩ : Config).conditions
      = some (.strCond "*") ∧
    df_filter ⟨["a"], [[Value.vint 1]]⟩ (.strCond "*") = .ok ⟨["a"], [[Value.vint 1]]⟩ ∧
    (⟨["a"], [[Value.vint 1]]⟩ : Table).isEmptyT = false ∧
    (⟨some (.strCond "*"), some [("a", .mstr "b")], none⟩ : Config).extensions = none ∧
    prepare_object ⟨["a"], [[Value.vint 1]]⟩
        ⟨some (.strCond "*"), some [("a", .mstr "b")], none⟩
      = .error (.keyError "extensions") :=
  ⟨rfl, rfl, rfl, rfl, rfl, C10_theorem _ _ _ _ rfl rfl rfl rfl rfl⟩

end RemapColumns
